import Mathlib

/-!
Shallow embedding of the identifier generator of the `mongodb` package
(src/id.go) and of the `UpdateType.String` helper (src/mongo.go).

Machine integers are modelled as `Nat` with explicit `% 2^w` where the Go
code converts or overflows.  The process-wide mutable state
(`machineId`, `processId`, `objectIdCounter`) is an explicit record that
the generation function threads.  The wall clock is an explicit argument
(the Unix seconds that `time.Now().Unix()` returns at the call).
-/

namespace MongoDB

/-- The process-wide state of the identifier generator: the 3-byte machine
fingerprint `machineId`, the OS process id `processId`, and the `uint32`
counter `objectIdCounter` (src/id.go lines 18-20). -/
structure IdState where
  machineId : List Nat
  processId : Nat
  objectIdCounter : Nat
deriving Repr, DecidableEq

/-- One call of `NewObjectID` (src/id.go lines 22-39), as a function of the
current Unix-seconds clock reading and the generator state.  Returns the
12-byte identifier and the state after the call.

Byte for byte from the source: bytes 0-3 are `binary.BigEndian.PutUint32`
of `uint32(time.Now().Unix())` (the Go conversion truncates mod `2^32`);
bytes 4-6 copy `machineId`; byte 7 is `byte(processId >> 8)` and byte 8 is
`byte(processId)`; `i := atomic.AddUint32(&objectIdCounter, 1)` increments
mod `2^32`, and bytes 9-11 are `byte(i >> 16)`, `byte(i >> 8)`, `byte(i)`. -/
def NewObjectID (nowUnix : Nat) (s : IdState) : List Nat × IdState :=
  let t := nowUnix % 4294967296
  let i := (s.objectIdCounter + 1) % 4294967296
  ([ t / 16777216 % 256, t / 65536 % 256, t / 256 % 256, t % 256,
     s.machineId.getD 0 0, s.machineId.getD 1 0, s.machineId.getD 2 0,
     s.processId / 256 % 256, s.processId % 256,
     i / 65536 % 256, i / 256 % 256, i % 256 ],
   { s with objectIdCounter := i })

/-- The state after the first `n` calls of `NewObjectID` in one process,
where `τ k` is the clock reading observed by call number `k` (0-based). -/
def stateAfter (τ : Nat → Nat) (s : IdState) : Nat → IdState
  | 0 => s
  | n + 1 => (NewObjectID (τ n) (stateAfter τ s n)).2

/-- The identifier returned by call number `n` (0-based) of `NewObjectID`. -/
def idAt (τ : Nat → Nat) (s : IdState) (n : Nat) : List Nat :=
  (NewObjectID (τ n) (stateAfter τ s n)).1

/-- Bytes 9-11 of an identifier read as an unsigned big-endian 24-bit
integer. -/
def counter24 (l : List Nat) : Nat :=
  l.getD 9 0 * 65536 + l.getD 10 0 * 256 + l.getD 11 0

/-- Strict lexicographic order on raw byte sequences, as `bytes.Compare`
orders `ObjectID` values. -/
def bytesLt : List Nat → List Nat → Bool
  | [], [] => false
  | [], _ :: _ => true
  | _ :: _, [] => false
  | a :: as, b :: bs =>
    if a < b then true else if b < a then false else bytesLt as bs

end MongoDB

namespace MongoDB

lemma stateAfter_machineId (τ : Nat → Nat) (s : IdState) (n : Nat) :
    (stateAfter τ s n).machineId = s.machineId := by
  induction n with
  | zero => rfl
  | succ n ih => simp [stateAfter, NewObjectID, ih]

lemma stateAfter_processId (τ : Nat → Nat) (s : IdState) (n : Nat) :
    (stateAfter τ s n).processId = s.processId := by
  induction n with
  | zero => rfl
  | succ n ih => simp [stateAfter, NewObjectID, ih]

lemma stateAfter_counter (τ : Nat → Nat) (s : IdState) (n : Nat)
    (h : s.objectIdCounter < 4294967296) :
    (stateAfter τ s n).objectIdCounter =
      (s.objectIdCounter + n) % 4294967296 := by
  induction n with
  | zero => simpa [stateAfter] using (Nat.mod_eq_of_lt h).symm
  | succ n ih => simp [stateAfter, NewObjectID, ih]; omega

lemma stateAfter_eq (τ : Nat → Nat) (s : IdState) (n : Nat)
    (h : s.objectIdCounter < 4294967296) :
    stateAfter τ s n =
      ⟨s.machineId, s.processId, (s.objectIdCounter + n) % 4294967296⟩ := by
  cases hs : stateAfter τ s n with
  | mk m p c =>
    have h1 := stateAfter_machineId τ s n
    have h2 := stateAfter_processId τ s n
    have h3 := stateAfter_counter τ s n h
    rw [hs] at h1 h2 h3
    simp_all

lemma counter24_idAt (τ : Nat → Nat) (s : IdState) (n : Nat)
    (h : s.objectIdCounter < 4294967296) :
    counter24 (idAt τ s n) = (s.objectIdCounter + n + 1) % 16777216 := by
  rw [idAt, stateAfter_eq τ s n h]
  simp [NewObjectID, counter24, List.getD]
  omega

/-- C1: every call to `NewObjectID` returns exactly 12 bytes: bytes 0-3 the
clock reading truncated to an unsigned 32-bit value, big-endian; bytes 4-6
the 3 machine-fingerprint bytes; bytes 7-8 the low 16 bits of the process
id, high byte first; bytes 9-11 the post-increment counter's low 24 bits,
big-endian. -/
theorem newObjectID_layout (nowUnix : Nat) (s : IdState)
    (m0 m1 m2 : Nat) (hm : s.machineId = [m0, m1, m2]) :
    (NewObjectID nowUnix s).1.length = 12 ∧
    (NewObjectID nowUnix s).1.take 4 =
      [nowUnix % 4294967296 / 16777216, nowUnix % 4294967296 / 65536 % 256,
       nowUnix % 4294967296 / 256 % 256, nowUnix % 4294967296 % 256] ∧
    ((NewObjectID nowUnix s).1.drop 4).take 3 = s.machineId ∧
    ((NewObjectID nowUnix s).1.drop 7).take 2 =
      [s.processId % 65536 / 256, s.processId % 65536 % 256] ∧
    (NewObjectID nowUnix s).1.drop 9 =
      [(s.objectIdCounter + 1) % 16777216 / 65536,
       (s.objectIdCounter + 1) % 16777216 / 256 % 256,
       (s.objectIdCounter + 1) % 16777216 % 256] := by
  simp only [NewObjectID, hm]
  refine ⟨rfl, ?_, ?_, ?_, ?_⟩ <;> simp [List.take, List.drop, List.getD] <;> omega

/-- Witness for `newObjectID_layout` at a concrete input. -/
theorem newObjectID_layout_witness :
    (NewObjectID 1700000000 ⟨[17, 34, 51], 70000, 4294967295⟩).1.length = 12 ∧
    (NewObjectID 1700000000 ⟨[17, 34, 51], 70000, 4294967295⟩).1.take 4 =
      [1700000000 % 4294967296 / 16777216, 1700000000 % 4294967296 / 65536 % 256,
       1700000000 % 4294967296 / 256 % 256, 1700000000 % 4294967296 % 256] ∧
    ((NewObjectID 1700000000 ⟨[17, 34, 51], 70000, 4294967295⟩).1.drop 4).take 3 =
      [17, 34, 51] ∧
    ((NewObjectID 1700000000 ⟨[17, 34, 51], 70000, 4294967295⟩).1.drop 7).take 2 =
      [70000 % 65536 / 256, 70000 % 65536 % 256] ∧
    (NewObjectID 1700000000 ⟨[17, 34, 51], 70000, 4294967295⟩).1.drop 9 =
      [(4294967295 + 1) % 16777216 / 65536,
       (4294967295 + 1) % 16777216 / 256 % 256,
       (4294967295 + 1) % 16777216 % 256] :=
  newObjectID_layout 1700000000 ⟨[17, 34, 51], 70000, 4294967295⟩ 17 34 51 rfl

lemma getD_lt_byte (l : List Nat) (i : Nat) (h : ∀ b ∈ l, b < 256) :
    l.getD i 0 < 256 := by
  induction l generalizing i with
  | nil => simp [List.getD]
  | cons a l ih =>
    cases i with
    | zero => exact h a (List.mem_cons_self a l)
    | succ i =>
      exact ih i fun b hb => h b (List.mem_cons_of_mem a hb)

/-- C7: `NewObjectID` is total: for every generator state (with byte-valued
machine id) and every clock reading it returns a 12-byte identifier; there
is no error branch. -/
theorem newObjectID_total (nowUnix : Nat) (s : IdState)
    (hm : ∀ b ∈ s.machineId, b < 256) :
    (NewObjectID nowUnix s).1.length = 12 ∧
    ∀ b ∈ (NewObjectID nowUnix s).1, b < 256 := by
  refine ⟨rfl, ?_⟩
  intro b hb
  have g0 := getD_lt_byte s.machineId 0 hm
  have g1 := getD_lt_byte s.machineId 1 hm
  have g2 := getD_lt_byte s.machineId 2 hm
  simp only [NewObjectID, List.mem_cons, List.not_mem_nil, or_false] at hb
  rcases hb with h | h | h | h | h | h | h | h | h | h | h | h <;> omega

/-- Witness for `newObjectID_total` at a concrete input. -/
theorem newObjectID_total_witness :
    (NewObjectID 5 ⟨[1, 2, 3], 9, 0⟩).1.length = 12 ∧
    ∀ b ∈ (NewObjectID 5 ⟨[1, 2, 3], 9, 0⟩).1, b < 256 :=
  newObjectID_total 5 ⟨[1, 2, 3], 9, 0⟩ (by decide)

/-- C4: bytes 4-8 (machine and process fingerprint) are the same in every
identifier a process generates, and no generation call modifies the
machine-id or process-id state. -/
theorem fingerprint_bytes_constant (τ : Nat → Nat) (s : IdState) (m n : Nat) :
    ((idAt τ s m).drop 4).take 5 = ((idAt τ s n).drop 4).take 5 ∧
    (stateAfter τ s n).machineId = s.machineId ∧
    (stateAfter τ s n).processId = s.processId := by
  have key : ∀ k, ((idAt τ s k).drop 4).take 5 =
      [s.machineId.getD 0 0, s.machineId.getD 1 0, s.machineId.getD 2 0,
       s.processId / 256 % 256, s.processId % 256] := by
    intro k
    simp [idAt, NewObjectID, stateAfter_machineId, stateAfter_processId]
  exact ⟨(key m).trans (key n).symm, stateAfter_machineId τ s n,
    stateAfter_processId τ s n⟩

/-- C2 counterexample: with the counter starting at 0, call number 0 and
call number 2^24 (both in the same wall-clock second 1700000000, from the
same process) return byte-for-byte equal identifiers: the claim as stated,
for any two calls in the same second, is false once the 24-bit emitted
counter wraps. -/
theorem sameSecond_collision :
    idAt (fun _ => 1700000000) ⟨[1, 2, 3], 42, 0⟩ 16777216 =
      idAt (fun _ => 1700000000) ⟨[1, 2, 3], 42, 0⟩ 0 ∧
    (16777216 : Nat) ≠ 0 := by
  constructor
  · simp only [idAt]
    rw [stateAfter_eq (fun _ => 1700000000) ⟨[1, 2, 3], 42, 0⟩ 16777216 (by norm_num),
      stateAfter_eq (fun _ => 1700000000) ⟨[1, 2, 3], 42, 0⟩ 0 (by norm_num)]
    decide
  · decide

/-- C2 amended: two calls in the same wall-clock second return distinct
identifiers whenever the number of calls separating them is not a multiple
of 2^24 (in particular, whenever fewer than 2^24 calls lie between them). -/
theorem sameSecond_distinct (τ : Nat → Nat) (s : IdState) (m n : Nat)
    (hc : s.objectIdCounter < 4294967296) (_hτ : τ m = τ n) (hmn : m < n)
    (hsep : (n - m) % 16777216 ≠ 0) :
    idAt τ s m ≠ idAt τ s n := by
  intro he
  have h1 := counter24_idAt τ s m hc
  have h2 := counter24_idAt τ s n hc
  rw [he] at h1
  omega

/-- Witness for `sameSecond_distinct`: two consecutive calls in the same
second differ. -/
theorem sameSecond_distinct_witness :
    idAt (fun _ => 1700000000) ⟨[1, 2, 3], 42, 0⟩ 0 ≠
      idAt (fun _ => 1700000000) ⟨[1, 2, 3], 42, 0⟩ 1 :=
  sameSecond_distinct (fun _ => 1700000000) ⟨[1, 2, 3], 42, 0⟩ 0 1
    (by norm_num) rfl (by norm_num) (by norm_num)

/-- C3 counterexample: for two calls `a` then `b` that are NOT consecutive
(call number 0 and call number 2, one call between them, same second, same
process), `b`'s 24-bit counter field is `a`'s plus 2, not plus 1: the
claim quantified over every pair with b strictly after a is false. -/
theorem counter_nonconsecutive :
    counter24 (idAt (fun _ => 1700000000) ⟨[1, 2, 3], 42, 0⟩ 2) ≠
      (counter24 (idAt (fun _ => 1700000000) ⟨[1, 2, 3], 42, 0⟩ 0) + 1) %
        16777216 := by
  decide

/-- C3 amended: for each call and the call immediately after it, the
shared counter advances by exactly 1 (wrapping at 2^32), and the 24-bit
counter field of the next identifier is the previous one plus 1 modulo
2^24. -/
theorem counter_step (τ : Nat → Nat) (s : IdState) (n : Nat)
    (hc : s.objectIdCounter < 4294967296) :
    (stateAfter τ s (n + 1)).objectIdCounter =
      ((stateAfter τ s n).objectIdCounter + 1) % 4294967296 ∧
    counter24 (idAt τ s (n + 1)) = (counter24 (idAt τ s n) + 1) % 16777216 := by
  have h1 := stateAfter_counter τ s n hc
  have h2 := stateAfter_counter τ s (n + 1) hc
  have h3 := counter24_idAt τ s n hc
  have h4 := counter24_idAt τ s (n + 1) hc
  constructor
  · rw [h1, h2]; omega
  · rw [h3, h4]; omega

/-- Witness for `counter_step` at a concrete input. -/
theorem counter_step_witness :
    (stateAfter (fun _ => 1700000000) ⟨[1, 2, 3], 42, 0⟩ 1).objectIdCounter =
      ((stateAfter (fun _ => 1700000000) ⟨[1, 2, 3], 42, 0⟩ 0).objectIdCounter
        + 1) % 4294967296 ∧
    counter24 (idAt (fun _ => 1700000000) ⟨[1, 2, 3], 42, 0⟩ 1) =
      (counter24 (idAt (fun _ => 1700000000) ⟨[1, 2, 3], 42, 0⟩ 0) + 1) %
        16777216 :=
  counter_step (fun _ => 1700000000) ⟨[1, 2, 3], 42, 0⟩ 0 (by norm_num)

lemma bytesLt_cons_lt {a b : Nat} (h : a < b) (as bs : List Nat) :
    bytesLt (a :: as) (b :: bs) = true := by
  simp [bytesLt, h]

lemma bytesLt_cons_self (a : Nat) (as bs : List Nat) :
    bytesLt (a :: as) (a :: bs) = bytesLt as bs := by
  simp [bytesLt]

lemma bytesLt_digits16 {t1 t2 : Nat} (h : t1 < t2) (h2 : t2 < 65536)
    (xs ys : List Nat) :
    bytesLt (t1 / 256 % 256 :: t1 % 256 :: xs)
      (t2 / 256 % 256 :: t2 % 256 :: ys) = true := by
  have e1 : t1 / 256 % 256 = t1 / 256 := by omega
  have e2 : t2 / 256 % 256 = t2 / 256 := by omega
  rw [e1, e2]
  rcases Nat.lt_trichotomy (t1 / 256) (t2 / 256) with hlt | heq | hgt
  · exact bytesLt_cons_lt hlt _ _
  · rw [heq, bytesLt_cons_self]
    exact bytesLt_cons_lt (by omega) _ _
  · exact absurd hgt (by omega)

lemma bytesLt_digits24 {t1 t2 : Nat} (h : t1 < t2) (h2 : t2 < 16777216)
    (xs ys : List Nat) :
    bytesLt (t1 / 65536 % 256 :: t1 / 256 % 256 :: t1 % 256 :: xs)
      (t2 / 65536 % 256 :: t2 / 256 % 256 :: t2 % 256 :: ys) = true := by
  have e1 : t1 / 65536 % 256 = t1 / 65536 := by omega
  have e2 : t2 / 65536 % 256 = t2 / 65536 := by omega
  rcases Nat.lt_trichotomy (t1 / 65536) (t2 / 65536) with hlt | heq | hgt
  · rw [e1, e2]; exact bytesLt_cons_lt hlt _ _
  · rw [e1, e2, heq, bytesLt_cons_self]
    have r1 : t1 / 256 % 256 = t1 % 65536 / 256 % 256 := by omega
    have r2 : t1 % 256 = t1 % 65536 % 256 := by omega
    have r3 : t2 / 256 % 256 = t2 % 65536 / 256 % 256 := by omega
    have r4 : t2 % 256 = t2 % 65536 % 256 := by omega
    rw [r1, r2, r3, r4]
    exact bytesLt_digits16 (by omega) (by omega) xs ys
  · exact absurd hgt (by omega)

lemma bytesLt_digits32 {t1 t2 : Nat} (h : t1 < t2) (h2 : t2 < 4294967296)
    (xs ys : List Nat) :
    bytesLt
      (t1 / 16777216 % 256 :: t1 / 65536 % 256 :: t1 / 256 % 256 :: t1 % 256 :: xs)
      (t2 / 16777216 % 256 :: t2 / 65536 % 256 :: t2 / 256 % 256 :: t2 % 256 :: ys)
      = true := by
  have e1 : t1 / 16777216 % 256 = t1 / 16777216 := by omega
  have e2 : t2 / 16777216 % 256 = t2 / 16777216 := by omega
  rcases Nat.lt_trichotomy (t1 / 16777216) (t2 / 16777216) with hlt | heq | hgt
  · rw [e1, e2]; exact bytesLt_cons_lt hlt _ _
  · rw [e1, e2, heq, bytesLt_cons_self]
    have r1 : t1 / 65536 % 256 = t1 % 16777216 / 65536 % 256 := by omega
    have r2 : t1 / 256 % 256 = t1 % 16777216 / 256 % 256 := by omega
    have r3 : t1 % 256 = t1 % 16777216 % 256 := by omega
    have r4 : t2 / 65536 % 256 = t2 % 16777216 / 65536 % 256 := by omega
    have r5 : t2 / 256 % 256 = t2 % 16777216 / 256 % 256 := by omega
    have r6 : t2 % 256 = t2 % 16777216 % 256 := by omega
    rw [r1, r2, r3, r4, r5, r6]
    exact bytesLt_digits24 (by omega) (by omega) xs ys
  · exact absurd hgt (by omega)

/-- C6 counterexample: with the counter seeded at 2^24 - 2, the identifier
returned by call number 1 sorts strictly BEFORE the identifier returned by
call number 0 in raw byte order, although both calls happen in the same
second and call 1 is generated later: byte order does not always match
generation order. -/
theorem byteOrder_violation :
    bytesLt (idAt (fun _ => 1700000000) ⟨[1, 2, 3], 42, 16777214⟩ 1)
      (idAt (fun _ => 1700000000) ⟨[1, 2, 3], 42, 16777214⟩ 0) = true := by
  decide

/-- C6 amended: for calls `m < n` of the same process, the identifier of
call `m` sorts strictly before that of call `n` in raw byte order,
provided the clock is non-decreasing, timestamps fit in 32 bits, and, when
both calls fall in the same second, the emitted 24-bit counter does not
wrap between them. -/
theorem byteOrder_matches_genOrder (τ : Nat → Nat) (s : IdState) (m n : Nat)
    (hc : s.objectIdCounter < 4294967296) (hmn : m < n)
    (hmono : ∀ i j, i ≤ j → τ i ≤ τ j) (hbound : τ n < 4294967296)
    (hwrap : τ m = τ n →
      (s.objectIdCounter + m + 1) % 16777216 <
        (s.objectIdCounter + n + 1) % 16777216) :
    bytesLt (idAt τ s m) (idAt τ s n) = true := by
  have hτ : τ m ≤ τ n := hmono m n (le_of_lt hmn)
  have hτm : τ m % 4294967296 = τ m := by omega
  have hτn : τ n % 4294967296 = τ n := by omega
  simp only [idAt]
  rw [stateAfter_eq τ s m hc, stateAfter_eq τ s n hc]
  simp only [NewObjectID, hτm, hτn]
  rcases eq_or_lt_of_le hτ with heq | hlt
  · rw [heq]
    simp only [bytesLt_cons_self]
    have hlow := hwrap heq
    have r1 : ((s.objectIdCounter + m) % 4294967296 + 1) % 4294967296 / 65536 % 256
        = (s.objectIdCounter + m + 1) % 16777216 / 65536 % 256 := by omega
    have r2 : ((s.objectIdCounter + m) % 4294967296 + 1) % 4294967296 / 256 % 256
        = (s.objectIdCounter + m + 1) % 16777216 / 256 % 256 := by omega
    have r3 : ((s.objectIdCounter + m) % 4294967296 + 1) % 4294967296 % 256
        = (s.objectIdCounter + m + 1) % 16777216 % 256 := by omega
    have r4 : ((s.objectIdCounter + n) % 4294967296 + 1) % 4294967296 / 65536 % 256
        = (s.objectIdCounter + n + 1) % 16777216 / 65536 % 256 := by omega
    have r5 : ((s.objectIdCounter + n) % 4294967296 + 1) % 4294967296 / 256 % 256
        = (s.objectIdCounter + n + 1) % 16777216 / 256 % 256 := by omega
    have r6 : ((s.objectIdCounter + n) % 4294967296 + 1) % 4294967296 % 256
        = (s.objectIdCounter + n + 1) % 16777216 % 256 := by omega
    rw [r1, r2, r3, r4, r5, r6]
    exact bytesLt_digits24 hlow (by omega) [] []
  · exact bytesLt_digits32 hlt hbound _ _

/-- Witness for `byteOrder_matches_genOrder` at concrete inputs. -/
theorem byteOrder_matches_genOrder_witness :
    bytesLt (idAt (fun _ => 1700000000) ⟨[1, 2, 3], 42, 5⟩ 0)
      (idAt (fun _ => 1700000000) ⟨[1, 2, 3], 42, 5⟩ 1) = true :=
  byteOrder_matches_genOrder (fun _ => 1700000000) ⟨[1, 2, 3], 42, 5⟩ 0 1
    (by norm_num) (by norm_num) (fun i j _ => le_refl 1700000000)
    (by norm_num) (fun _ => by norm_num)

/-- One element of the `netInterface.Addrs()` result: `ipNet` is
`some (isLoopback, ipString)` when the address is a `*net.IPNet`
(`ip.IP.IsLoopback()` and `ip.IP.String()`), `none` when the type
assertion fails. -/
structure NetAddr where
  ipNet : Option (Bool × String)

/-- One network interface: the outcome of `Addrs()` (which can fail) and
its `HardwareAddr.String()` value. -/
structure NetInterface where
  addrs : Except Unit (List NetAddr)
  hardwareAddr : String

/-- Sequential `sourceBuf.WriteString` calls, as one concatenation. -/
def concatAll : List String → String
  | [] => ""
  | s :: rest => s ++ concatAll rest

/-- What one address contributes to the buffer (src/id.go lines 61-65):
the IP string when the address is a non-loopback `*net.IPNet`, nothing
otherwise. -/
def addrWrite (a : NetAddr) : String :=
  match a.ipNet with
  | some (isLoop, s) => if isLoop then "" else s
  | none => ""

/-- What one interface contributes (src/id.go lines 58-69): its address
strings when `Addrs()` succeeded, then always its hardware-address
string. -/
def interfaceWrite (i : NetInterface) : String :=
  (match i.addrs with
   | .ok l => concatAll (l.map addrWrite)
   | .error _ => "") ++ i.hardwareAddr

/-- The buffer `readMachineId` hashes (src/id.go lines 47-70): the
hostname when `os.Hostname()` succeeded, then the interface data when
`net.Interfaces()` succeeded. -/
def machineSourceBuf (hostname : Except Unit String)
    (ifaces : Except Unit (List NetInterface)) : String :=
  (match hostname with
   | .ok h => h
   | .error _ => "")
  ++ (match ifaces with
      | .ok l => concatAll (l.map interfaceWrite)
      | .error _ => "")

/-- `readMachineId` (src/id.go lines 43-76), as a function of the
environment it reads.  The digest (`crypto/md5`, Go standard library) is
an abstract parameter producing the byte list `hw.Sum(nil)`.
`copy(id, hw.Sum(nil))` copies at most 3 bytes into the zero-initialized
3-byte array `sum`, so the result is the digest truncated to 3 bytes and
zero-padded to length 3. -/
def readMachineId (digest : String → List Nat) (hostname : Except Unit String)
    (ifaces : Except Unit (List NetInterface)) : List Nat :=
  ((digest (machineSourceBuf hostname ifaces)).take 3 ++ [0, 0, 0]).take 3

/-- The fingerprint input as the spec words it: the local hostname when
obtainable, followed by, for every network interface, the string form of
every non-loopback IP address bound to it and then the interface's
hardware address string. -/
def specFingerprintBuf (hostname : Option String)
    (ifaces : List (List (Bool × String) × String)) : String :=
  hostname.getD ""
  ++ concatAll (ifaces.map fun i =>
       concatAll (((i.1.filter fun a => !a.1).map fun a => a.2)) ++ i.2)

lemma concatAll_addrWrite (l : List (Bool × String)) :
    concatAll (l.map fun a => addrWrite ⟨some a⟩) =
      concatAll ((l.filter fun a => !a.1).map fun a => a.2) := by
  induction l with
  | nil => rfl
  | cons a l ih =>
    cases a with
    | mk isLoop s =>
      cases isLoop with
      | true =>
        show addrWrite ⟨some (true, s)⟩ ++ _ = _
        rw [show addrWrite ⟨some (true, s)⟩ = "" from rfl, String.empty_append, ih]
        rfl
      | false =>
        show addrWrite ⟨some (false, s)⟩ ++ _ = _
        rw [show addrWrite ⟨some (false, s)⟩ = s from rfl, ih]
        rfl

/-- C5: the machine fingerprint is the first 3 bytes of the digest of the
buffer that concatenates the hostname (when obtainable) and, per
interface, its non-loopback IP address strings followed by its hardware
address string. -/
theorem machineId_is_digest_prefix (digest : String → List Nat)
    (hd : ∀ s, (digest s).length = 16)
    (ho : Option String) (ifs : List (List (Bool × String) × String)) :
    readMachineId digest
        (match ho with | some h => .ok h | none => .error ())
        (.ok (ifs.map fun i => ⟨.ok (i.1.map fun a => ⟨some a⟩), i.2⟩)) =
      (digest (specFingerprintBuf ho ifs)).take 3 := by
  have hbuf : machineSourceBuf
      (match ho with | some h => Except.ok h | none => Except.error ())
      (.ok (ifs.map fun i => ⟨.ok (i.1.map fun a => ⟨some a⟩), i.2⟩)) =
      specFingerprintBuf ho ifs := by
    unfold machineSourceBuf specFingerprintBuf
    congr 1
    · cases ho <;> rfl
    · show concatAll ((ifs.map fun i =>
        NetInterface.mk (.ok (i.1.map fun a => ⟨some a⟩)) i.2).map interfaceWrite) = _
      rw [List.map_map]
      refine congrArg concatAll (List.map_congr_left fun i _ => ?_)
      show concatAll ((i.1.map fun a => NetAddr.mk (some a)).map addrWrite) ++ i.2 = _
      rw [List.map_map]
      congr 1
      exact concatAll_addrWrite i.1
  rw [readMachineId, hbuf]
  exact List.take_left' (by rw [List.length_take, hd]; rfl)

/-- Witness for `machineId_is_digest_prefix` at a concrete input. -/
theorem machineId_is_digest_prefix_witness :
    readMachineId (fun _ => [0, 1, 2, 3, 4, 5, 6, 7, 8, 9, 10, 11, 12, 13, 14, 15])
        (.ok "myhost")
        (.ok [⟨.ok [⟨some (false, "10.0.0.1")⟩], "aa:bb:cc:dd:ee:ff"⟩]) =
      ((fun _ => [0, 1, 2, 3, 4, 5, 6, 7, 8, 9, 10, 11, 12, 13, 14, 15])
        (specFingerprintBuf (some "myhost")
          [([(false, "10.0.0.1")], "aa:bb:cc:dd:ee:ff")])).take 3 :=
  machineId_is_digest_prefix
    (fun _ => [0, 1, 2, 3, 4, 5, 6, 7, 8, 9, 10, 11, 12, 13, 14, 15])
    (fun _ => rfl) (some "myhost") [([(false, "10.0.0.1")], "aa:bb:cc:dd:ee:ff")]

/-- C8: `readMachineId` never signals an error and always returns 3
bytes; a failed hostname lookup silently contributes nothing (same result
as an empty hostname), a failed interface enumeration silently
contributes nothing (same result as an empty interface list), and in the
worst case (both fail) the result is the first 3 bytes of the digest of
the empty input. -/
theorem readMachineId_degrades (digest : String → List Nat)
    (hd : ∀ s, (digest s).length = 16) :
    (∀ hostname ifaces, (readMachineId digest hostname ifaces).length = 3) ∧
    (∀ ifaces, readMachineId digest (.error ()) ifaces =
      readMachineId digest (.ok "") ifaces) ∧
    (∀ hostname, readMachineId digest hostname (.error ()) =
      readMachineId digest hostname (.ok [])) ∧
    readMachineId digest (.error ()) (.error ()) = (digest "").take 3 := by
  refine ⟨?_, ?_, ?_, ?_⟩
  · intro hostname ifaces
    simp [readMachineId, List.length_take]
  · intro ifaces
    rfl
  · intro hostname
    simp [readMachineId, machineSourceBuf, concatAll]
  · rw [readMachineId]
    have hb : machineSourceBuf (Except.error ()) (Except.error ()) = "" := rfl
    rw [hb]
    exact List.take_left' (by rw [List.length_take, hd]; rfl)

/-- Witness for `readMachineId_degrades` at a concrete digest. -/
theorem readMachineId_degrades_witness :
    (∀ hostname ifaces,
      (readMachineId (fun _ => List.replicate 16 9) hostname ifaces).length = 3) ∧
    (∀ ifaces, readMachineId (fun _ => List.replicate 16 9) (.error ()) ifaces =
      readMachineId (fun _ => List.replicate 16 9) (.ok "") ifaces) ∧
    (∀ hostname, readMachineId (fun _ => List.replicate 16 9) hostname (.error ()) =
      readMachineId (fun _ => List.replicate 16 9) hostname (.ok [])) ∧
    readMachineId (fun _ => List.replicate 16 9) (.error ()) (.error ()) =
      ((fun _ => List.replicate 16 9) "").take 3 :=
  readMachineId_degrades (fun _ => List.replicate 16 9) (fun _ => rfl)

/-- `readRandomUint32` (src/id.go lines 79-86), as a function of the
outcome of `io.ReadFull(rand.Reader, b[:])`: `.ok` carries the 4 bytes
read, `.error` the failed read, on which the Go code panics — modelled as
`Except.error` (initialization aborts, the process cannot start). -/
def readRandomUint32 (src : Except Unit (Nat × Nat × Nat × Nat)) :
    Except Unit Nat :=
  match src with
  | .error e => .error e
  | .ok (b0, b1, b2, b3) =>
    .ok (b0 <<< 0 ||| b1 <<< 8 ||| b2 <<< 16 ||| b3 <<< 24)

lemma lor_shift_byte {b : Nat} (a : Nat) (k : Nat) (hb : b < 2 ^ k) :
    b ||| a <<< k = a * 2 ^ k + b := by
  rw [Nat.shiftLeft_eq, Nat.lor_comm, Nat.mul_comm]
  exact (Nat.mul_add_lt_is_or hb a).symm

/-- C9: seeding reads exactly 4 bytes from the random source and combines
them into an unsigned 32-bit integer (little-endian in the code: each of
the 4 bytes occupies its own 8-bit field, and the value is below 2^32);
when the read fails the seeding fails, the one unrecoverable error path. -/
theorem readRandomUint32_spec :
    (∀ b0 b1 b2 b3 : Nat, b0 < 256 → b1 < 256 → b2 < 256 → b3 < 256 →
      readRandomUint32 (.ok (b0, b1, b2, b3)) =
        .ok (b0 + b1 * 256 + b2 * 65536 + b3 * 16777216) ∧
      b0 + b1 * 256 + b2 * 65536 + b3 * 16777216 < 4294967296) ∧
    readRandomUint32 (.error ()) = .error () := by
  constructor
  · intro b0 b1 b2 b3 h0 h1 h2 h3
    constructor
    · simp only [readRandomUint32]
      congr 1
      rw [Nat.shiftLeft_zero]
      rw [lor_shift_byte b1 8 (by norm_num; omega)]
      rw [lor_shift_byte b2 16 (by norm_num; omega)]
      rw [lor_shift_byte b3 24 (by norm_num; omega)]
      norm_num
      omega
    · omega
  · rfl

/-- Witness for `readRandomUint32_spec` at concrete bytes. -/
theorem readRandomUint32_witness :
    (readRandomUint32 (.ok (1, 2, 3, 4)) =
        .ok (1 + 2 * 256 + 3 * 65536 + 4 * 16777216) ∧
      1 + 2 * 256 + 3 * 65536 + 4 * 16777216 < 4294967296) ∧
    readRandomUint32 (.error ()) = .error () :=
  ⟨readRandomUint32_spec.1 1 2 3 4 (by norm_num) (by norm_num) (by norm_num)
      (by norm_num),
    readRandomUint32_spec.2⟩

/-- The `UpdateType` constants (src/mongo.go lines 20-34), `iota` values
of a Go `int`. -/
def UpdateSet : Int := 0

def UpdateUnset : Int := 1

def UpdateRename : Int := 2

def UpdateInc : Int := 3

def UpdateSlicePush : Int := 4

def UpdateSlicePushAll : Int := 5

def UpdateSliceAddToSet : Int := 6

def UpdateSlicePop : Int := 7

def UpdateSlicePull : Int := 8

def UpdateSlicePullAll : Int := 9

/-- The operator table (src/mongo.go line 39). -/
def updateTypes : List String :=
  ["$set", "$unset", "$rename", "$inc", "$push", "$pushAll", "$addToSet",
   "$pop", "$pull", "$pullAll"]

/-- `UpdateType.String` (src/mongo.go lines 41-47): a bounds-checked table
lookup falling back to `updateTypes[0]`. -/
def UpdateTypeString (u : Int) : String :=
  if UpdateSet ≤ u ∧ u ≤ UpdateSlicePullAll then updateTypes.getD u.toNat ""
  else updateTypes.getD 0 ""

/-- C10: for `UpdateSet ≤ u ≤ UpdateSlicePullAll`, `String` returns the
operator at index `u` of the table; for every `u` outside that range
(negative or above `UpdateSlicePullAll`) it returns `"$set"` rather than
failing. -/
theorem updateTypeString_spec :
    (∀ u : Int, UpdateSet ≤ u → u ≤ UpdateSlicePullAll →
      UpdateTypeString u =
        ["$set", "$unset", "$rename", "$inc", "$push", "$pushAll",
         "$addToSet", "$pop", "$pull", "$pullAll"].getD u.toNat "") ∧
    (∀ u : Int, u < UpdateSet ∨ UpdateSlicePullAll < u →
      UpdateTypeString u = "$set") := by
  constructor
  · intro u h1 h2
    rw [UpdateTypeString, if_pos ⟨h1, h2⟩]
    rfl
  · intro u h
    rw [UpdateTypeString, if_neg]
    · rfl
    · rintro ⟨ha, hb⟩
      rcases h with h | h
      · exact absurd ha (not_le.mpr h)
      · exact absurd hb (not_le.mpr h)

/-- Witness for `updateTypeString_spec`: index 3 maps to `"$inc"` and a
negative index falls back to `"$set"`. -/
theorem updateTypeString_witness :
    UpdateTypeString 3 =
      ["$set", "$unset", "$rename", "$inc", "$push", "$pushAll",
       "$addToSet", "$pop", "$pull", "$pullAll"].getD (3 : Int).toNat "" ∧
    UpdateTypeString (-5) = "$set" :=
  ⟨updateTypeString_spec.1 3 (by decide) (by decide),
    updateTypeString_spec.2 (-5) (Or.inl (by decide))⟩

end MongoDB
